import Mathlib

/-!
Shallow embedding of the room microservice gateway
(`src/room/room.gateway.ts` plus the parts of `src/room/room.service.ts`
it calls).  Socket.io emissions are modelled as explicit output values
(target scope together with a typed event), the Prisma-backed room store
as a list of durable room records carried in the gateway state, and the
Yjs CRDT engine as an external capability record whose `applyUpdate` may
fail.  Handlers that the source leaves free to throw (no try/catch)
return a `HandlerResult` whose `thrown` constructor records the state
and emissions accumulated before the exception escaped.
-/

namespace RoomGateway

/-- A line/column position, as used by `selectionStart`/`selectionEnd`. -/
structure Pos where
  line : Int
  column : Int
deriving DecidableEq, Repr

/-- The `lastSelection` record of a `Member`: all fields optional, matching
the TypeScript interface (a point `{line, column}`, a range
`{selectionStart, selectionEnd, selectedText}`, or the cleared `{}`). -/
structure Selection where
  line : Option Int := none
  column : Option Int := none
  selectionStart : Option Pos := none
  selectionEnd : Option Pos := none
  selectedText : Option String := none
deriving DecidableEq, Repr

/-- `Member` of an active room (`interface Member`).  `lastActivity`
timestamps are modelled as `Nat` ticks supplied by the caller. -/
structure Member where
  clientId : String
  telegramId : String
  username : Option String
  online : Bool
  lastCursorPosition : Option (Int × Int)
  lastSelection : Option Selection
  userColor : Option String
  lastActivity : Option Nat
deriving DecidableEq, Repr

/-- An active room (`interface Room` in the gateway). -/
structure Room where
  id : String
  members : List Member
  teacher : String
  studentCursorEnabled : Bool
  studentSelectionEnabled : Bool
  studentEditCodeEnabled : Bool
  completed : Bool
deriving DecidableEq, Repr

/-- A durable room record as returned by `roomService.getRoom` (the Prisma
row projected through `RoomRdo`): toggles are nullable there. -/
structure StoreRoom where
  id : String
  teacher : String
  students : List String
  studentCursorEnabled : Option Bool
  studentSelectionEnabled : Option Bool
  studentEditCodeEnabled : Option Bool
  completed : Bool
  language : Option String
  taskId : Option String
deriving DecidableEq, Repr

/-- Payload of `join-room` (`interface JoinPayload`). -/
structure JoinPayload where
  telegramId : String
  roomId : String
  username : Option String
deriving DecidableEq, Repr

/-- Payload of `edit-room` (`interface EditPayload`). -/
structure EditPayload where
  roomId : String
  telegramId : String
  studentCursorEnabled : Option Bool
  studentEditCodeEnabled : Option Bool
  studentSelectionEnabled : Option Bool
  language : Option String
  taskId : Option String
deriving DecidableEq, Repr

/-- One entry of the `logs` array of a cursor payload (`interface Log`). -/
structure Log where
  telegramId : String
  cursor : List Int
deriving DecidableEq, Repr

/-- Payload of `cursor` (`interface CursorPayload`). -/
structure CursorPayload where
  roomId : String
  position : List Int
  logs : List Log
  telegramId : String
deriving DecidableEq, Repr

/-- Payload of `selection` (`interface SelectionPayload`).  The optional
`clearSelection` flag is modelled by its truthiness as a `Bool`. -/
structure SelectionPayload where
  roomId : String
  telegramId : String
  line : Option Int
  column : Option Int
  selectionStart : Option Pos
  selectionEnd : Option Pos
  selectedText : Option String
  clearSelection : Bool
deriving DecidableEq, Repr

/-- Payload of `code-edit` (`interface CodeEditPayload`); the `Uint8Array`
update blob is a list of bytes. -/
structure CodeEditPayload where
  roomId : String
  telegramId : String
  update : List Nat
deriving DecidableEq, Repr

/-- A Yjs document, modelled as the log of update blobs applied to it. -/
structure YDoc where
  updates : List (List Nat)
deriving DecidableEq, Repr

/-- The external CRDT engine capability (`Y.applyUpdate`,
`Y.encodeStateAsUpdate`); `applyUpdate` may reject a blob. -/
structure Engine where
  applyUpdate : YDoc → List Nat → Except String YDoc
  encodeStateAsUpdate : YDoc → List Nat

/-- Member projection used by `members-updated`; `isYourself` is only
present in the join broadcast. -/
structure MemberInfo where
  telegramId : String
  username : Option String
  isYourself : Option Bool
  online : Bool
  userColor : Option String
  lastActivity : Option Nat
deriving DecidableEq, Repr

/-- One entry of `currentCursors` in the `joined` reply. -/
structure CursorEntry where
  telegramId : String
  position : Option (Int × Int)
  userColor : Option String
  username : Option String
deriving DecidableEq, Repr

/-- One entry of a `selections` array: the member's `lastSelection` fields
spread into the entry (all absent when the member has none). -/
structure SelEntry where
  telegramId : String
  line : Option Int
  column : Option Int
  selectionStart : Option Pos
  selectionEnd : Option Pos
  selectedText : Option String
  userColor : Option String
  username : Option String
deriving DecidableEq, Repr

/-- Payload of the `joined` reply. -/
structure JoinedPayload where
  telegramId : String
  currentCursors : List CursorEntry
  currentSelections : List SelEntry
  userColor : String
  isTeacher : Bool
  studentCursorEnabled : Bool
  studentSelectionEnabled : Bool
  studentEditCodeEnabled : Bool
  language : Option String
  completed : Bool
deriving DecidableEq, Repr

/-- An outbound socket event with its payload. -/
inductive OutEvent where
  | joinRoomError (message : String)
  | error (message : String)
  | membersUpdated (members : List MemberInfo) (trigger : String) (telegramId : String)
  | joined (p : JoinedPayload)
  | codeEditAction (telegramId : Option String) (userColor : Option String)
      (username : Option String) (update : List Nat)
  | selectionState (selections : List SelEntry) (updatedUser : String)
  | cursorAction (roomId : String) (position : List Int) (logs : List Log)
      (telegramId : String) (userColor : Option String) (username : Option String)
  | roomEdited (room : StoreRoom)
  | completeSession (message : String)
  | memberLeft (telegramId : String) (keepCursor : Bool)
deriving DecidableEq, Repr

/-- Emission target: `client.emit` (sender), `server.to(room).emit`, or
`client.broadcast.to(room).emit`. -/
inductive Target where
  | sender
  | room (roomId : String)
  | roomExceptSender (roomId : String)
deriving DecidableEq, Repr

/-- One emission: target scope plus event. -/
abbrev Emit := Target × OutEvent

/-- Whole gateway state: `activeRooms`, the durable store consulted via
`roomService`, and the per-room Yjs doc registry (`docs`). -/
structure GatewayState where
  activeRooms : List Room
  store : List StoreRoom
  docs : List (String × YDoc)
deriving DecidableEq, Repr

/-- Result of a handler that the source allows to throw: `thrown` keeps the
state mutations and emissions that happened before the exception escaped. -/
inductive HandlerResult where
  | ok (st : GatewayState) (emits : List Emit)
  | thrown (st : GatewayState) (emits : List Emit) (msg : String)
deriving DecidableEq, Repr

def HandlerResult.state : HandlerResult → GatewayState
  | .ok st _ => st
  | .thrown st _ _ => st

def HandlerResult.emits : HandlerResult → List Emit
  | .ok _ es => es
  | .thrown _ es _ => es

def HandlerResult.isThrown : HandlerResult → Bool
  | .ok _ _ => false
  | .thrown _ _ _ => true

def HandlerResult.errMsg : HandlerResult → Option String
  | .ok _ _ => none
  | .thrown _ _ m => some m

@[simp] theorem HandlerResult.state_ok (st : GatewayState) (es : List Emit) :
    (HandlerResult.ok st es).state = st := rfl

@[simp] theorem HandlerResult.state_thrown (st : GatewayState) (es : List Emit)
    (m : String) : (HandlerResult.thrown st es m).state = st := rfl

@[simp] theorem HandlerResult.emits_ok (st : GatewayState) (es : List Emit) :
    (HandlerResult.ok st es).emits = es := rfl

@[simp] theorem HandlerResult.emits_thrown (st : GatewayState) (es : List Emit)
    (m : String) : (HandlerResult.thrown st es m).emits = es := rfl

/-- The fifteen-entry color palette of `generateUserColor`. -/
def colors : List String :=
  ["#FF6B6B", "#4ECDC4", "#45B7D1", "#96CEB4", "#FFEAA7",
   "#DDA0DD", "#98D8C8", "#F7DC6F", "#BB8FCE", "#85C1E9",
   "#F8C471", "#82E0AA", "#F1948A", "#85929E", "#D7BDE2"]

/-- Wrap an integer to JavaScript's signed 32-bit range, as `<<` does. -/
def toInt32 (n : Int) : Int :=
  let m := n % 4294967296
  if m ≥ 2147483648 then m - 4294967296 else m

/-- One step of the string hash: `hash = c + ((hash << 5) - hash)`.
Exact for the integer range JavaScript doubles represent exactly. -/
def hashStep (hash : Int) (c : Nat) : Int :=
  (c : Int) + (toInt32 (hash * 32) - hash)

/-- The hash loop of `generateUserColor` over the identity's code units. -/
def jsHash (userId : String) : Int :=
  userId.toList.foldl (fun h ch => hashStep h ch.toNat) 0

/-- `generateUserColor`: deterministic palette pick from the identity. -/
def generateUserColor (userId : String) : String :=
  (colors.get? ((jsHash userId).natAbs % colors.length)).getD ""

/-- Replace the first element satisfying `p` (JavaScript `find` followed by
in-place mutation of the found object). -/
def updateFirst (p : α → Bool) (f : α → α) : List α → List α
  | [] => []
  | x :: xs => if p x then f x :: xs else x :: updateFirst p f xs

/-- Remove the first element whose id matches (`findIndex` + `splice`). -/
def removeFirstById (rid : String) : List Room → List Room
  | [] => []
  | r :: rest => if r.id == rid then rest else r :: removeFirstById rid rest

/-- `this.activeRooms.find((r) => r.id === roomId)`. -/
def findRoom (rooms : List Room) (rid : String) : Option Room :=
  rooms.find? (fun r => r.id == rid)

/-- `roomService.getRoom(id)`: first store record with that id. -/
def storeGetRoom (store : List StoreRoom) (rid : String) : Option StoreRoom :=
  store.find? (fun r => r.id == rid)

/-- JavaScript truthiness of an optional string (absent and "" are falsy). -/
def strTruthy : Option String → Bool
  | some s => s != ""
  | none => false

/-- JavaScript truthiness of an optional number (absent and 0 are falsy). -/
def lineTruthy : Option Int → Bool
  | some v => v != 0
  | none => false

/-- `roomService.joinRoom(id, member)`: enroll a student, idempotently;
`none` models the `NotFoundException` when the room vanished. -/
def storeJoinRoom (store : List StoreRoom) (id member : String) :
    Option (List StoreRoom × StoreRoom) :=
  match storeGetRoom store id with
  | none => none
  | some room =>
    if room.students.contains member || room.teacher == member then
      some (store, room)
    else
      let updated : StoreRoom := { room with students := room.students ++ [member] }
      some (updateFirst (fun r => r.id == id) (fun _ => updated) store, updated)

/-- `getOrCreateDoc`: look up the room's doc, creating an empty one. -/
def getOrCreateDoc (docs : List (String × YDoc)) (roomId : String) :
    List (String × YDoc) × YDoc :=
  match docs.find? (fun p => p.1 == roomId) with
  | some p => (docs, p.2)
  | none => (docs ++ [(roomId, { updates := [] })], { updates := [] })

/-- Member upsert of `handleJoinRoom`: rebind an existing member (username
only overwritten when the incoming one is truthy) or push a fresh one with
a freshly generated color. -/
def upsertMember (ms : List Member) (clientId telegramId : String)
    (username : Option String) (now : Nat) : List Member :=
  if (ms.find? (fun m => m.telegramId == telegramId)).isSome then
    updateFirst (fun m => m.telegramId == telegramId)
      (fun m =>
        { m with online := true, clientId := clientId, lastActivity := some now,
                 username := if strTruthy username then username else m.username })
      ms
  else
    ms ++ [{ clientId := clientId, telegramId := telegramId, username := username,
             online := true, lastCursorPosition := none, lastSelection := none,
             userColor := some (generateUserColor telegramId),
             lastActivity := some now }]

/-- Roster entry for the join broadcast (with `isYourself`). -/
def memberInfoJoin (selfId : String) (m : Member) : MemberInfo :=
  { telegramId := m.telegramId, username := m.username,
    isYourself := some (m.telegramId == selfId), online := m.online,
    userColor := m.userColor, lastActivity := m.lastActivity }

/-- Roster entry without `isYourself` (edit-member and disconnect). -/
def memberInfoPlain (m : Member) : MemberInfo :=
  { telegramId := m.telegramId, username := m.username, isYourself := none,
    online := m.online, userColor := m.userColor, lastActivity := m.lastActivity }

/-- Cursor entry of the `joined` reply. -/
def cursorEntryOf (m : Member) : CursorEntry :=
  { telegramId := m.telegramId, position := m.lastCursorPosition,
    userColor := m.userColor, username := m.username }

/-- Selection entry: spread of `m.lastSelection` (absent spreads to nothing);
the disconnect variant omits `username`. -/
def selEntryOf (withUsername : Bool) (m : Member) : SelEntry :=
  let s := m.lastSelection.getD {}
  { telegramId := m.telegramId, line := s.line, column := s.column,
    selectionStart := s.selectionStart, selectionEnd := s.selectionEnd,
    selectedText := s.selectedText, userColor := m.userColor,
    username := if withUsername then m.username else none }

/-- `existingMember?.userColor || this.generateUserColor(telegramId)`. -/
def joinColor (existing : Option Member) (telegramId : String) : String :=
  match existing.bind (fun m => m.userColor) with
  | some c => if c == "" then generateUserColor telegramId else c
  | none => generateUserColor telegramId

/-- The fresh ActiveRoom created on first join: `{...room, members: [],
toggles defaulted to enabled when unset, completed copied}`. -/
def freshActiveRoom (room : StoreRoom) : Room :=
  { id := room.id, members := [], teacher := room.teacher,
    studentCursorEnabled := room.studentCursorEnabled.getD true,
    studentSelectionEnabled := room.studentSelectionEnabled.getD true,
    studentEditCodeEnabled := room.studentEditCodeEnabled.getD true,
    completed := room.completed }

/-- Second half of `handleJoinRoom`, after the store fetch/enroll: activate
the room, upsert the member, and produce the four emissions. -/
def joinActiveRoomPhase (engine : Engine) (st : GatewayState)
    (store1 : List StoreRoom) (room : StoreRoom) (clientId : String)
    (data : JoinPayload) (now : Nat) : HandlerResult :=
  let activeRoom := (findRoom st.activeRooms room.id).getD (freshActiveRoom room)
  let rooms1 :=
    match findRoom st.activeRooms room.id with
    | some _ => st.activeRooms
    | none => st.activeRooms ++ [freshActiveRoom room]
  let existingMember := activeRoom.members.find? (fun m => m.telegramId == data.telegramId)
  let newMembers := upsertMember activeRoom.members clientId data.telegramId data.username now
  let rooms2 := updateFirst (fun r => r.id == room.id)
    (fun r => { r with members := newMembers }) rooms1
  let roster := newMembers.map (memberInfoJoin data.telegramId)
  let currentCursors :=
    (newMembers.filter (fun m => m.lastCursorPosition.isSome && m.online)).map cursorEntryOf
  let currentSelections :=
    (newMembers.filter (fun m => m.lastSelection.isSome && m.online)).map (selEntryOf true)
  let gd := getOrCreateDoc st.docs room.id
  .ok { activeRooms := rooms2, store := store1, docs := gd.1 }
    [(Target.room data.roomId, OutEvent.membersUpdated roster "join" data.telegramId),
     (Target.sender, OutEvent.joined
       { telegramId := data.telegramId, currentCursors := currentCursors,
         currentSelections := currentSelections,
         userColor := joinColor existingMember data.telegramId,
         isTeacher := room.teacher == data.telegramId,
         studentCursorEnabled := activeRoom.studentCursorEnabled,
         studentSelectionEnabled := activeRoom.studentSelectionEnabled,
         studentEditCodeEnabled := activeRoom.studentEditCodeEnabled,
         language := room.language, completed := room.completed }),
     (Target.sender, OutEvent.codeEditAction none none none
       (engine.encodeStateAsUpdate gd.2)),
     (Target.sender, OutEvent.selectionState currentSelections data.telegramId)]

/-- The enrollment step of `handleJoinRoom`: a caller who is neither the
teacher nor an enrolled student is enrolled through the store. -/
def enrollIfNeeded (store : List StoreRoom) (room0 : StoreRoom)
    (telegramId : String) : Option (List StoreRoom × StoreRoom) :=
  if room0.teacher == telegramId || room0.students.contains telegramId
  then some (store, room0)
  else storeJoinRoom store room0.id telegramId

/-- `handleJoinRoom`: fetch the durable room, enroll a non-participant,
then activate/upsert and reply. -/
def handleJoinRoom (engine : Engine) (st : GatewayState) (clientId : String)
    (data : JoinPayload) (now : Nat) : HandlerResult :=
  match storeGetRoom st.store data.roomId with
  | none => .ok st [(Target.sender, OutEvent.joinRoomError "Комната не найдена")]
  | some room0 =>
    match enrollIfNeeded st.store room0 data.telegramId with
    | none => .thrown st [] "Room not found"
    | some (store1, room) =>
      joinActiveRoomPhase engine st store1 room clientId data now

/-- The durable record after `roomService.editRoom`: `taskId`/`language`
only when provided, toggles provided-or-current. -/
def editedStoreRoom (current : StoreRoom) (dto : EditPayload) : StoreRoom :=
  { current with
    taskId := match dto.taskId with | some t => some t | none => current.taskId,
    language := match dto.language with | some l => some l | none => current.language,
    studentCursorEnabled :=
      match dto.studentCursorEnabled with
      | some b => some b
      | none => current.studentCursorEnabled,
    studentSelectionEnabled :=
      match dto.studentSelectionEnabled with
      | some b => some b
      | none => current.studentSelectionEnabled,
    studentEditCodeEnabled :=
      match dto.studentEditCodeEnabled with
      | some b => some b
      | none => current.studentEditCodeEnabled }

/-- `roomService.editRoom`: partial durable update (provided toggles win,
otherwise current values are rewritten unchanged); `none` models its
`NotFoundException`. -/
def storeEditRoom (store : List StoreRoom) (id : String) (dto : EditPayload) :
    Option (List StoreRoom × StoreRoom) :=
  match store.find? (fun r => r.id == id && r.teacher == dto.telegramId) with
  | none => none
  | some current =>
    some (updateFirst (fun r => r.id == id && r.teacher == dto.telegramId)
      (fun _ => editedStoreRoom current dto) store, editedStoreRoom current dto)

/-- Merge of one toggle into the active-room snapshot:
`data.X !== undefined ? Boolean(data.X) : (activeRoom?.X ?? room.X)`.
The all-absent fallback collapses null to `false`; the snapshot field is
only ever read in boolean position. -/
def mergeToggle (provided : Option Bool) (activeVal : Option Bool)
    (storeVal : Option Bool) : Bool :=
  match provided with
  | some b => b
  | none =>
    match activeVal with
    | some v => v
    | none => storeVal.getD false

/-- `handleEditRoom`: teacher-only partial reconfiguration, persisted and
then merged into the active-room snapshot. -/
def handleEditRoom (st : GatewayState) (data : EditPayload) : HandlerResult :=
  match storeGetRoom st.store data.roomId with
  | none => .ok st [(Target.sender, OutEvent.error "Комната не найдена")]
  | some room =>
    if room.teacher != data.telegramId then
      .ok st [(Target.sender, OutEvent.error "Комната не найдена")]
    else if room.completed then .ok st []
    else
      let activeRoom := findRoom st.activeRooms room.id
      match storeEditRoom st.store room.id data with
      | none => .thrown st [] "Room not found"
      | some (store1, updatedRoom) =>
        let rooms1 := st.activeRooms.map (fun item =>
          if item.id == updatedRoom.id then
            { item with
              studentCursorEnabled :=
                mergeToggle data.studentCursorEnabled
                  (activeRoom.map (fun ar => ar.studentCursorEnabled))
                  room.studentCursorEnabled,
              studentEditCodeEnabled :=
                mergeToggle data.studentEditCodeEnabled
                  (activeRoom.map (fun ar => ar.studentEditCodeEnabled))
                  room.studentEditCodeEnabled,
              studentSelectionEnabled :=
                mergeToggle data.studentSelectionEnabled
                  (activeRoom.map (fun ar => ar.studentSelectionEnabled))
                  room.studentSelectionEnabled }
          else item)
        .ok { st with activeRooms := rooms1, store := store1 }
          [(Target.room data.roomId, OutEvent.roomEdited updatedRoom)]

/-- `handleCursor`: gate, validate the position length, record the cursor,
and broadcast `cursor-action` to everyone else in the room. -/
def handleCursor (st : GatewayState) (data : CursorPayload) (now : Nat) :
    GatewayState × List Emit :=
  match findRoom st.activeRooms data.roomId with
  | none => (st, [(Target.sender, OutEvent.error "Комната не найдена")])
  | some activeRoom =>
    if activeRoom.completed then (st, [])
    else if !activeRoom.studentCursorEnabled then (st, [])
    else if data.position.length != 2 then
      (st, [(Target.sender, OutEvent.error
        "Позиция по курсору может иметь только два значения - x, y")])
    else
      let member := activeRoom.members.find? (fun m => m.telegramId == data.telegramId)
      let newMembers :=
        if member.isSome then
          updateFirst (fun m => m.telegramId == data.telegramId)
            (fun m => { m with
              lastCursorPosition := some (data.position.getD 0 0, data.position.getD 1 0),
              lastActivity := some now })
            activeRoom.members
        else activeRoom.members
      let rooms1 := updateFirst (fun r => r.id == data.roomId)
        (fun r => { r with members := newMembers }) st.activeRooms
      ({ st with activeRooms := rooms1 },
       [(Target.roomExceptSender activeRoom.id,
         OutEvent.cursorAction data.roomId data.position data.logs data.telegramId
           (member.bind (fun m => m.userColor)) (member.bind (fun m => m.username)))])

/-- Classification test of the point branch of `handleSelection`:
`data.line && typeof data.column === 'number' &&
(!data.selectionStart || !data.selectionEnd || !data.selectedText)`. -/
def pointCond (d : SelectionPayload) : Bool :=
  lineTruthy d.line && d.column.isSome &&
    (!d.selectionStart.isSome || !d.selectionEnd.isSome || !(strTruthy d.selectedText))

/-- Classification test of the range branch:
`data.selectionStart && data.selectionEnd && data.selectedText`. -/
def rangeCond (d : SelectionPayload) : Bool :=
  d.selectionStart.isSome && d.selectionEnd.isSome && strTruthy d.selectedText

/-- The point selection stored by branch (a): `{ line, column }`. -/
def pointSelection (d : SelectionPayload) : Selection :=
  { line := d.line, column := d.column }

/-- The range selection stored by branch (b). -/
def rangeSelection (d : SelectionPayload) : Selection :=
  { selectionStart := d.selectionStart, selectionEnd := d.selectionEnd,
    selectedText := d.selectedText }

/-- Mutation `handleSelection` applies to the sender's member record. -/
def applySelection (d : SelectionPayload) (m : Member) (now : Nat) : Member :=
  let m1 : Member := { m with lastActivity := some now }
  if pointCond d then { m1 with lastSelection := some (pointSelection d) }
  else if rangeCond d then { m1 with lastSelection := some (rangeSelection d) }
  else if d.clearSelection then { m1 with lastSelection := some {} }
  else m1

/-- The member list after `handleSelection` stored the sender's selection:
mutation happens only when the sender has a member record. -/
def selMembersAfter (activeRoom : Room) (data : SelectionPayload) (now : Nat) :
    List Member :=
  if (activeRoom.members.find? (fun m => m.telegramId == data.telegramId)).isSome then
    updateFirst (fun m => m.telegramId == data.telegramId)
      (fun m => applySelection data m now) activeRoom.members
  else activeRoom.members

/-- `handleSelection`: gate (teacher exempt from both the completed flag and
the toggle), classify and store the selection, then broadcast the full
selection set of all online members to everyone except the sender. -/
def handleSelection (st : GatewayState) (data : SelectionPayload) (now : Nat) :
    GatewayState × List Emit :=
  match findRoom st.activeRooms data.roomId with
  | none => (st, [(Target.sender, OutEvent.error "Комната не найдена")])
  | some activeRoom =>
    if activeRoom.completed && activeRoom.teacher != data.telegramId then (st, [])
    else if !activeRoom.studentSelectionEnabled &&
        activeRoom.teacher != data.telegramId then (st, [])
    else
      let newMembers := selMembersAfter activeRoom data now
      let currentSelections :=
        (newMembers.filter (fun m => m.online)).map (selEntryOf true)
      let rooms1 := updateFirst (fun r => r.id == data.roomId)
        (fun r => { r with members := newMembers }) st.activeRooms
      ({ st with activeRooms := rooms1 },
       [(Target.roomExceptSender activeRoom.id,
         OutEvent.selectionState currentSelections data.telegramId)])

/-- `handleCodeEdit`: gate, apply the blob through the engine (no try/catch
in the source, so an engine rejection escapes as `thrown`), and relay the
blob to everyone except the sender. -/
def handleCodeEdit (engine : Engine) (st : GatewayState) (data : CodeEditPayload)
    (now : Nat) : HandlerResult :=
  match findRoom st.activeRooms data.roomId with
  | none => .ok st [(Target.sender, OutEvent.error "Комната не найдена")]
  | some activeRoom =>
    if activeRoom.completed && activeRoom.teacher != data.telegramId then .ok st []
    else if !activeRoom.studentEditCodeEnabled &&
        data.telegramId != activeRoom.teacher then
      .ok st [(Target.sender, OutEvent.error
        "Редактирование кода отключено в этой комнате")]
    else if data.telegramId == "" then
      .ok st [(Target.sender, OutEvent.error "Не указан telegramId")]
    else
      let member := activeRoom.members.find? (fun m => m.telegramId == data.telegramId)
      let newMembers :=
        if member.isSome then
          updateFirst (fun m => m.telegramId == data.telegramId)
            (fun m => { m with lastActivity := some now }) activeRoom.members
        else activeRoom.members
      let rooms1 := updateFirst (fun r => r.id == data.roomId)
        (fun r => { r with members := newMembers }) st.activeRooms
      let gd := getOrCreateDoc st.docs data.roomId
      match engine.applyUpdate gd.2 data.update with
      | .error e => .thrown { st with activeRooms := rooms1, docs := gd.1 } [] e
      | .ok doc1 =>
        let docs2 := updateFirst (fun p => p.1 == data.roomId)
          (fun p => (p.1, doc1)) gd.1
        .ok { st with activeRooms := rooms1, docs := docs2 }
          [(Target.roomExceptSender activeRoom.id,
            OutEvent.codeEditAction (some data.telegramId)
              (member.bind (fun m => m.userColor))
              (member.bind (fun m => m.username)) data.update)]

/-- Payload of `edit-member` (`interface EditMember`). -/
structure EditMemberPayload where
  telegramId : String
  roomId : String
  username : Option String
  changeTelegramId : String
deriving DecidableEq, Repr

/-- `handleEditMember`: rename a member (self or teacher only), then
broadcast the roster. -/
def handleEditMember (st : GatewayState) (data : EditMemberPayload) :
    GatewayState × List Emit :=
  match findRoom st.activeRooms data.roomId with
  | none => (st, [(Target.sender, OutEvent.error "Комната не найдена")])
  | some activeRoom =>
    if activeRoom.completed then (st, [])
    else
      match activeRoom.members.find? (fun m => m.telegramId == data.changeTelegramId) with
      | some member =>
        if member.telegramId == data.telegramId ||
            activeRoom.teacher == data.telegramId then
          let newMembers := updateFirst (fun m => m.telegramId == data.changeTelegramId)
            (fun m => { m with username := data.username }) activeRoom.members
          let rooms1 := updateFirst (fun r => r.id == data.roomId)
            (fun r => { r with members := newMembers }) st.activeRooms
          ({ st with activeRooms := rooms1 },
           [(Target.room activeRoom.id,
             OutEvent.membersUpdated (newMembers.map memberInfoPlain)
               "username-update" data.telegramId)])
        else (st, [(Target.sender, OutEvent.error "Участник не найден в комнате")])
      | none => (st, [(Target.sender, OutEvent.error "Участник не найден в комнате")])

/-- `handleCloseSession`: teacher-only; persist `completed`, evict the
active room, and notify the room. -/
def handleCloseSession (st : GatewayState) (data : JoinPayload) : HandlerResult :=
  match storeGetRoom st.store data.roomId with
  | none => .ok st [(Target.sender, OutEvent.error "Комната не найдена")]
  | some room =>
    if room.teacher != data.telegramId then
      .ok st [(Target.sender, OutEvent.error "Комната не найдена")]
    else if room.completed then .ok st []
    else
      let store1 := updateFirst (fun r => r.id == data.roomId)
        (fun r => { r with completed := true }) st.store
      let rooms1 := st.activeRooms.filter (fun r => r.id != room.id)
      .ok { st with store := store1, activeRooms := rooms1 }
        [(Target.room room.id, OutEvent.completeSession "Учитель завершил сессию")]

/-- The member mutation of `handleDisconnect`: offline, selection cleared. -/
def discMemberUpdate (clientId : String) (ms : List Member) : List Member :=
  updateFirst (fun m => m.clientId == clientId)
    (fun m => { m with online := false, lastSelection := none }) ms

/-- Does this room contain a member bound to the connection? -/
def roomHasClient (clientId : String) (r : Room) : Bool :=
  (r.members.find? (fun m => m.clientId == clientId)).isSome

/-- `handleDisconnect`: the source's for-loop with `break` processes exactly
the first active room containing a member bound to the connection; it marks
that member offline, clears its selection, emits the three broadcasts, and
splices out the room (first index with its id) if nobody is left online. -/
def handleDisconnect (st : GatewayState) (clientId : String) :
    GatewayState × List Emit :=
  match st.activeRooms.find? (roomHasClient clientId) with
  | none => (st, [])
  | some room =>
    match room.members.find? (fun m => m.clientId == clientId) with
    | none => (st, [])
    | some member =>
      let newMembers := discMemberUpdate clientId room.members
      let rooms1 := updateFirst (roomHasClient clientId)
        (fun r => { r with members := discMemberUpdate clientId r.members })
        st.activeRooms
      let emits : List Emit :=
        [(Target.room room.id, OutEvent.memberLeft member.telegramId true),
         (Target.room room.id, OutEvent.membersUpdated
           (newMembers.map memberInfoPlain) "leave" member.telegramId),
         (Target.room room.id, OutEvent.selectionState
           ((newMembers.filter (fun m => m.lastSelection.isSome && m.online)).map
             (selEntryOf false)) member.telegramId)]
      let rooms2 :=
        if (newMembers.filter (fun m => m.online)).length == 0
        then removeFirstById room.id rooms1
        else rooms1
      ({ st with activeRooms := rooms2 }, emits)

/-- A good-natured engine model for concrete runs. -/
def okEngine : Engine :=
  { applyUpdate := fun d u => .ok { updates := d.updates ++ [u] },
    encodeStateAsUpdate := fun d => d.updates.flatten }

/-- An engine that rejects every blob as structurally invalid. -/
def rejectEngine : Engine :=
  { applyUpdate := fun _ _ => .error "MalformedUpdate",
    encodeStateAsUpdate := fun d => d.updates.flatten }

/-- Does this emission go to the connections of room `rid` (either whole-room
or everyone-except-sender scope)? -/
def roomTargeted (rid : String) (e : Emit) : Bool :=
  match e.1 with
  | .room r => r == rid
  | .roomExceptSender r => r == rid
  | .sender => false

/-- Extract the payloads of `joined` events from an emission list. -/
def joinedPayloads (emits : List Emit) : List JoinedPayload :=
  emits.filterMap (fun e => match e.2 with | OutEvent.joined p => some p | _ => none)

/-- Is this event a `joined` reply? -/
def isJoinedEvent : OutEvent → Bool
  | OutEvent.joined _ => true
  | _ => false

/-!  Concrete fixtures used by counterexamples and witnesses. -/

/-- Online member A without cursor or selection state. -/
def memA : Member :=
  { clientId := "sockA", telegramId := "A", username := some "alice", online := true,
    lastCursorPosition := none, lastSelection := none,
    userColor := some (generateUserColor "A"), lastActivity := some 1 }

/-- Offline member B with a retained last cursor (kept across disconnect). -/
def memB : Member :=
  { clientId := "sockB0", telegramId := "B", username := some "bob", online := false,
    lastCursorPosition := some (1, 2), lastSelection := none,
    userColor := some (generateUserColor "B"), lastActivity := some 2 }

/-- Member B online (no stored selection). -/
def memBon : Member := { memB with online := true }

/-- Durable record of room r1, completed. -/
def srDone : StoreRoom :=
  { id := "r1", teacher := "T", students := ["A", "B"],
    studentCursorEnabled := some true, studentSelectionEnabled := some true,
    studentEditCodeEnabled := some true, completed := true,
    language := some "python", taskId := none }

/-- Durable record of room r1, still open. -/
def srLive : StoreRoom := { srDone with completed := false }

/-- Completed active room r1 holding A (online) and B (offline). -/
def arDone : Room :=
  { id := "r1", members := [memA, memB], teacher := "T",
    studentCursorEnabled := true, studentSelectionEnabled := true,
    studentEditCodeEnabled := true, completed := true }

/-- Open active room r1 holding A (online) and B (offline, retained cursor). -/
def arLive : Room := { arDone with completed := false }

/-- State with the completed room r1 active. -/
def stDone : GatewayState := { activeRooms := [arDone], store := [srDone], docs := [] }

/-- State with the open room r1 active. -/
def stLive : GatewayState := { activeRooms := [arLive], store := [srLive], docs := [] }

/-- Open active room r1 with A and B both online. -/
def arBoth : Room := { arLive with members := [memA, memBon] }

/-- State with A and B both online in the open room r1. -/
def stBoth : GatewayState :=
  { activeRooms := [arBoth], store := [srLive], docs := [] }

/-- Join of B into room r1 from a fresh socket. -/
def joinB : JoinPayload := { telegramId := "B", roomId := "r1", username := none }

/-- Point selection payload from A in room r1 (line 3, column 5). -/
def selPointA : SelectionPayload :=
  { roomId := "r1", telegramId := "A", line := some 3, column := some 5,
    selectionStart := none, selectionEnd := none, selectedText := none,
    clearSelection := false }

/-- Code edit from A in room r1. -/
def ceA : CodeEditPayload := { roomId := "r1", telegramId := "A", update := [7] }

/-!  Generic lemmas about the list-mutation helpers. -/

theorem mem_updateFirst {p : α → Bool} {f : α → α} {l : List α} {y : α}
    (hy : y ∈ updateFirst p f l) : y ∈ l ∨ ∃ x, x ∈ l ∧ y = f x := by
  induction l with
  | nil => simp [updateFirst] at hy
  | cons a t ih =>
    simp only [updateFirst] at hy
    by_cases h : p a
    · rw [if_pos h] at hy
      rcases List.mem_cons.mp hy with h1 | h1
      · exact Or.inr ⟨a, List.mem_cons_self a t, h1⟩
      · exact Or.inl (List.mem_cons_of_mem _ h1)
    · rw [if_neg h] at hy
      rcases List.mem_cons.mp hy with h1 | h1
      · exact Or.inl (h1 ▸ List.mem_cons_self a t)
      · rcases ih h1 with h2 | ⟨x, hx, hfx⟩
        · exact Or.inl (List.mem_cons_of_mem _ h2)
        · exact Or.inr ⟨x, List.mem_cons_of_mem _ hx, hfx⟩

theorem map_updateFirst (g : α → β) (p : α → Bool) (f : α → α)
    (hf : ∀ x, g (f x) = g x) (l : List α) :
    (updateFirst p f l).map g = l.map g := by
  induction l with
  | nil => rfl
  | cons a t ih =>
    simp only [updateFirst]
    by_cases h : p a
    · rw [if_pos h]; simp [hf]
    · rw [if_neg h]; simp [ih]

theorem mem_updateFirst_of_neg {p : α → Bool} {x : α} {l : List α}
    (hx : x ∈ l) (hp : p x = false) (f : α → α) : x ∈ updateFirst p f l := by
  induction l with
  | nil => simp at hx
  | cons a t ih =>
    simp only [updateFirst]
    rcases List.mem_cons.mp hx with rfl | h
    · rw [if_neg (by simp [hp])]
      exact List.mem_cons_self x _
    · by_cases hpa : p a
      · rw [if_pos hpa]; exact List.mem_cons_of_mem _ h
      · rw [if_neg hpa]; exact List.mem_cons_of_mem _ (ih h)

theorem image_mem_updateFirst {p : α → Bool} {l : List α} {x : α}
    (h : l.find? p = some x) (f : α → α) : f x ∈ updateFirst p f l := by
  induction l with
  | nil => simp at h
  | cons a t ih =>
    simp only [updateFirst]
    by_cases hpa : p a
    · rw [List.find?_cons_of_pos _ hpa] at h
      cases h
      rw [if_pos hpa]
      exact List.mem_cons_self _ _
    · rw [List.find?_cons_of_neg _ hpa] at h
      rw [if_neg hpa]
      exact List.mem_cons_of_mem _ (ih h)

theorem findRoom_mem {rooms : List Room} {rid : String} {r : Room}
    (h : findRoom rooms rid = some r) : r ∈ rooms ∧ r.id = rid := by
  unfold findRoom at h
  refine ⟨List.mem_of_find?_eq_some h, ?_⟩
  have := List.find?_some h
  simpa using this

theorem storeGetRoom_mem {store : List StoreRoom} {rid : String} {r : StoreRoom}
    (h : storeGetRoom store rid = some r) : r ∈ store ∧ r.id = rid := by
  unfold storeGetRoom at h
  refine ⟨List.mem_of_find?_eq_some h, ?_⟩
  have := List.find?_some h
  simpa using this

/-!  C10 -/

/-- C10: a selection payload whose `line` is the falsy value 0 never takes
the point branch (the classification tests truthiness of `line`, not
presence), so with no complete range triple and no clear flag the member's
stored last selection is unchanged even though a numeric column is given. -/
theorem c10_falsy_line_no_mutation (d : SelectionPayload) (m : Member) (now : Nat)
    (c : Int) (hcol : d.column = some c) (hline : d.line = some 0)
    (hrange : d.selectionStart.isSome = false ∨ d.selectionEnd.isSome = false ∨
      strTruthy d.selectedText = false)
    (hclear : d.clearSelection = false) :
    (applySelection d m now).lastSelection = m.lastSelection := by
  have hpoint : pointCond d = false := by
    unfold pointCond
    simp [lineTruthy, hline]
  have hrange2 : rangeCond d = false := by
    unfold rangeCond
    rcases hrange with h | h | h <;> simp [h]
  unfold applySelection
  rw [hpoint, hrange2]
  simp [hclear]

theorem c10_witness :
    selPointA.column = some 5 ∧
    ({ selPointA with line := some 0 } : SelectionPayload).line = some 0 ∧
    (applySelection { selPointA with line := some 0 } memA 9).lastSelection =
      memA.lastSelection := by
  refine ⟨rfl, rfl, c10_falsy_line_no_mutation _ memA 9 5 rfl rfl ?_ rfl⟩
  simp [selPointA]

/-!  C7 -/

/-- C7 counterexample: on a completed active room, a cursor payload whose
position has three coordinates is dropped silently, with no InvalidPayload
error sent at all — the length validation sits behind the completed gate. -/
theorem c7_counterexample :
    arDone.completed = true ∧
    (handleCursor stDone
      { roomId := "r1", position := [1, 2, 3], logs := [], telegramId := "A" } 7) =
      (stDone, []) := by decide

/-- C7 amended: on an active, uncompleted room with the student-cursor
toggle enabled, a cursor payload whose position length is not 2 yields the
InvalidPayload error to the sender only, no broadcast, and no state change. -/
theorem c7_invalid_cursor_payload (st : GatewayState) (d : CursorPayload)
    (now : Nat) (ar : Room)
    (har : findRoom st.activeRooms d.roomId = some ar)
    (hnc : ar.completed = false) (hen : ar.studentCursorEnabled = true)
    (hlen : d.position.length ≠ 2) :
    handleCursor st d now =
      (st, [(Target.sender, OutEvent.error
        "Позиция по курсору может иметь только два значения - x, y")]) := by
  unfold handleCursor
  rw [har]
  simp [hnc, hen, hlen]

theorem c7_witness :
    findRoom stLive.activeRooms "r1" = some arLive ∧
    (handleCursor stLive
      { roomId := "r1", position := [1, 2, 3], logs := [], telegramId := "A" } 7) =
      (stLive, [(Target.sender, OutEvent.error
        "Позиция по курсору может иметь только два значения - x, y")]) :=
  ⟨by decide, c7_invalid_cursor_payload stLive _ 7 arLive (by decide) (by decide)
    (by decide) (by decide)⟩

/-!  C2 -/

/-- C2 counterexample: a cursor event naming a room with no ActiveRoom is
not a silent no-op — the handler emits a room-not-found error to the
sender. -/
theorem c2_counterexample :
    findRoom stDone.activeRooms "zzz" = none ∧
    (handleCursor stDone
      { roomId := "zzz", position := [1, 2], logs := [], telegramId := "A" } 7).2 =
      [(Target.sender, OutEvent.error "Комната не найдена")] := by decide

/-- C2 amended: a cursor event on a room with no ActiveRoom emits a
room-not-found error to the sender only and changes nothing; when the
ActiveRoom is completed or the student-cursor toggle is disabled the
handler is a silent no-op (no emission at all, no state change). -/
theorem c2_cursor_gate_behavior (st : GatewayState) (d : CursorPayload) (now : Nat) :
    (findRoom st.activeRooms d.roomId = none →
      handleCursor st d now =
        (st, [(Target.sender, OutEvent.error "Комната не найдена")])) ∧
    (∀ ar, findRoom st.activeRooms d.roomId = some ar →
      ar.completed = true ∨ ar.studentCursorEnabled = false →
      handleCursor st d now = (st, [])) := by
  constructor
  · intro h
    unfold handleCursor
    rw [h]
  · intro ar har hgate
    unfold handleCursor
    rw [har]
    rcases hgate with h | h
    · simp [h]
    · by_cases hc : ar.completed <;> simp [hc, h]

theorem c2_witness :
    (handleCursor stDone
      { roomId := "zzz", position := [1, 2], logs := [], telegramId := "A" } 7) =
      (stDone, [(Target.sender, OutEvent.error "Комната не найдена")]) ∧
    (handleCursor stDone
      { roomId := "r1", position := [1, 2], logs := [], telegramId := "A" } 7) =
      (stDone, []) :=
  ⟨(c2_cursor_gate_behavior stDone _ 7).1 (by decide),
   (c2_cursor_gate_behavior stDone _ 7).2 arDone (by decide) (Or.inl (by decide))⟩

/-!  C5 -/

/-- C5 counterexample: with an engine that rejects the blob, the code-edit
handler neither catches the failure nor reports it to the sender — the
exception escapes the handler with no emission at all. -/
theorem c5_counterexample :
    (handleCodeEdit rejectEngine stLive ceA 3).isThrown = true ∧
    (handleCodeEdit rejectEngine stLive ceA 3).emits = [] := by decide

/-- C5 amended: when the gate passes and the CRDT engine rejects the update
blob, the rejection propagates out of the handler uncaught: the handler
sends no error event to the sender, performs no code-edit-action broadcast,
and leaves the durable store untouched. -/
theorem c5_malformed_update_propagates (engine : Engine) (st : GatewayState)
    (d : CodeEditPayload) (now : Nat) (ar : Room)
    (har : findRoom st.activeRooms d.roomId = some ar)
    (hg1 : ar.completed = false ∨ ar.teacher = d.telegramId)
    (hg2 : ar.studentEditCodeEnabled = true ∨ d.telegramId = ar.teacher)
    (hid : d.telegramId ≠ "") (e : String)
    (herr : engine.applyUpdate (getOrCreateDoc st.docs d.roomId).2 d.update =
      .error e) :
    (handleCodeEdit engine st d now).isThrown = true ∧
    (handleCodeEdit engine st d now).emits = [] ∧
    (handleCodeEdit engine st d now).errMsg = some e ∧
    (handleCodeEdit engine st d now).state.store = st.store := by
  have hgate1 : (ar.completed && ar.teacher != d.telegramId) = false := by
    rcases hg1 with h | h <;> simp [h]
  have hgate2 : (!ar.studentEditCodeEnabled && d.telegramId != ar.teacher) = false := by
    rcases hg2 with h | h <;> simp [h]
  have hid2 : (d.telegramId == "") = false := by simpa using hid
  unfold handleCodeEdit
  rw [har]
  simp only [hgate1, hgate2, hid2, Bool.false_eq_true, if_false, herr]
  exact ⟨rfl, rfl, rfl, rfl⟩

theorem c5_witness :
    findRoom stLive.activeRooms "r1" = some arLive ∧
    rejectEngine.applyUpdate (getOrCreateDoc stLive.docs "r1").2 ceA.update =
      .error "MalformedUpdate" ∧
    (handleCodeEdit rejectEngine stLive ceA 3).isThrown = true ∧
    (handleCodeEdit rejectEngine stLive ceA 3).emits = [] ∧
    (handleCodeEdit rejectEngine stLive ceA 3).errMsg = some "MalformedUpdate" ∧
    (handleCodeEdit rejectEngine stLive ceA 3).state.store = stLive.store := by
  refine ⟨by decide, rfl, ?_⟩
  have h := c5_malformed_update_propagates rejectEngine stLive ceA 3 arLive
    (by decide) (Or.inl (by decide)) (Or.inl (by decide)) (by decide)
    "MalformedUpdate" rfl
  exact ⟨h.1, h.2.1, h.2.2.1, h.2.2.2⟩

/-!  C1 -/

/-- C1 counterexample: joining a room whose completed flag is true (both in
the durable record and on the ActiveRoom) still broadcasts `members-updated`
to the whole room — `handleJoinRoom` has no completed gate, refuting the
claim that a join on a completed room produces no room-wide broadcast. -/
theorem c1_counterexample :
    (∀ r ∈ stDone.activeRooms, r.completed = true) ∧
    (storeGetRoom stDone.store "r1").map (fun r => r.completed) = some true ∧
    (handleJoinRoom okEngine stDone "sockB1" joinB 5).emits.filter
      (roomTargeted "r1") ≠ [] := by decide

/-- C1 amended: on a room whose ActiveRoom (and durable record) is marked
completed, the cursor, selection (non-teacher sender), code-edit
(non-teacher sender), edit-member and edit-room handlers emit nothing to
the room's connections; the remaining handlers — join-room, disconnect,
teacher selection and teacher code-edit, and the close-session
notification — are the exceptions that do reach a completed room. -/
theorem c1_completed_room_gates (st : GatewayState) (rid : String) (now : Nat)
    (cp : CursorPayload) (sp : SelectionPayload) (engine : Engine)
    (ce : CodeEditPayload) (em : EditMemberPayload) (ep : EditPayload)
    (hc : ∀ r ∈ st.activeRooms, r.id = rid → r.completed = true)
    (hcp : cp.roomId = rid) (hsp : sp.roomId = rid)
    (hspt : ∀ r ∈ st.activeRooms, r.id = rid → r.teacher ≠ sp.telegramId)
    (hce : ce.roomId = rid)
    (hcet : ∀ r ∈ st.activeRooms, r.id = rid → r.teacher ≠ ce.telegramId)
    (hem : em.roomId = rid) (hep : ep.roomId = rid)
    (hsc : ∀ r ∈ st.store, r.id = rid → r.completed = true) :
    (handleCursor st cp now).2.filter (roomTargeted rid) = [] ∧
    (handleSelection st sp now).2.filter (roomTargeted rid) = [] ∧
    (handleCodeEdit engine st ce now).emits.filter (roomTargeted rid) = [] ∧
    (handleEditMember st em).2.filter (roomTargeted rid) = [] ∧
    (handleEditRoom st ep).emits.filter (roomTargeted rid) = [] := by
  refine ⟨?_, ?_, ?_, ?_, ?_⟩
  · unfold handleCursor
    cases hfind : findRoom st.activeRooms cp.roomId with
    | none => simp [roomTargeted]
    | some ar =>
      obtain ⟨hmem, hid⟩ := findRoom_mem hfind
      have hcomp : ar.completed = true := hc ar hmem (hcp ▸ hid)
      simp [hcomp]
  · unfold handleSelection
    cases hfind : findRoom st.activeRooms sp.roomId with
    | none => simp [roomTargeted]
    | some ar =>
      obtain ⟨hmem, hid⟩ := findRoom_mem hfind
      have hcomp : ar.completed = true := hc ar hmem (hsp ▸ hid)
      have hteach : ar.teacher ≠ sp.telegramId := hspt ar hmem (hsp ▸ hid)
      simp [hcomp, hteach]
  · unfold handleCodeEdit
    cases hfind : findRoom st.activeRooms ce.roomId with
    | none => simp [roomTargeted]
    | some ar =>
      obtain ⟨hmem, hid⟩ := findRoom_mem hfind
      have hcomp : ar.completed = true := hc ar hmem (hce ▸ hid)
      have hteach : ar.teacher ≠ ce.telegramId := hcet ar hmem (hce ▸ hid)
      simp [hcomp, hteach, roomTargeted]
  · unfold handleEditMember
    cases hfind : findRoom st.activeRooms em.roomId with
    | none => simp [roomTargeted]
    | some ar =>
      obtain ⟨hmem, hid⟩ := findRoom_mem hfind
      have hcomp : ar.completed = true := hc ar hmem (hem ▸ hid)
      simp [hcomp]
  · unfold handleEditRoom
    cases hfind : storeGetRoom st.store ep.roomId with
    | none => simp [roomTargeted]
    | some room =>
      obtain ⟨hmem, hid⟩ := storeGetRoom_mem hfind
      have hcomp : room.completed = true := hsc room hmem (hep ▸ hid)
      by_cases ht : room.teacher = ep.telegramId
      · simp [ht, hcomp, roomTargeted]
      · have : (room.teacher != ep.telegramId) = true := by simpa using ht
        simp [this, roomTargeted]

theorem c1_witness :
    (handleCursor stDone
      { roomId := "r1", position := [1, 2], logs := [], telegramId := "A" } 7).2.filter
      (roomTargeted "r1") = [] ∧
    (handleSelection stDone selPointA 7).2.filter (roomTargeted "r1") = [] ∧
    (handleCodeEdit okEngine stDone ceA 7).emits.filter (roomTargeted "r1") = [] ∧
    (handleEditMember stDone
      { telegramId := "A", roomId := "r1", username := some "x",
        changeTelegramId := "A" }).2.filter (roomTargeted "r1") = [] ∧
    (handleEditRoom stDone
      { roomId := "r1", telegramId := "T", studentCursorEnabled := some false,
        studentEditCodeEnabled := none, studentSelectionEnabled := none,
        language := none, taskId := none }).emits.filter (roomTargeted "r1") = [] :=
  c1_completed_room_gates stDone "r1" 7 _ selPointA okEngine ceA _ _
    (by decide) rfl rfl (by decide) rfl (by decide) rfl rfl (by decide)

/-!  C4 -/

/-- C4 counterexample: after a point selection by A, the `selection-state`
broadcast lists every online member — here B, whose stored last selection is
empty — refuting the claim that the payload contains exactly the online
members with a non-empty last selection. -/
theorem c4_counterexample :
    memBon.online = true ∧ memBon.lastSelection = none ∧
    ((handleSelection stBoth selPointA 9).2.filterMap (fun e =>
      match e.2 with
      | OutEvent.selectionState sels _ => some (sels.map (fun s => s.telegramId))
      | _ => none)) = [["A", "B"]] := by decide

/-- C4 amended: a gate-passing selection event broadcasts, to everyone in
the room except the sender, a selection-state payload listing every online
member (members with no stored selection appear with all selection fields
absent); a stored point selection surfaces with its point fields and no
range fields. -/
theorem c4_selection_state_payload (st : GatewayState) (d : SelectionPayload)
    (now : Nat) (ar : Room)
    (har : findRoom st.activeRooms d.roomId = some ar)
    (hg1 : ar.completed = false ∨ ar.teacher = d.telegramId)
    (hg2 : ar.studentSelectionEnabled = true ∨ ar.teacher = d.telegramId) :
    (handleSelection st d now).2 =
      [(Target.roomExceptSender ar.id,
        OutEvent.selectionState
          (((selMembersAfter ar d now).filter (fun m => m.online)).map
            (selEntryOf true)) d.telegramId)] ∧
    (pointCond d = true →
      ∀ m : Member, (applySelection d m now).lastSelection =
        some (pointSelection d)) ∧
    (∀ m : Member, m.lastSelection = some (pointSelection d) →
      (selEntryOf true m).line = d.line ∧ (selEntryOf true m).column = d.column ∧
      (selEntryOf true m).selectionStart = none ∧
      (selEntryOf true m).selectionEnd = none ∧
      (selEntryOf true m).selectedText = none) := by
  have hgate1 : (ar.completed && ar.teacher != d.telegramId) = false := by
    rcases hg1 with h | h <;> simp [h]
  have hgate2 : (!ar.studentSelectionEnabled && ar.teacher != d.telegramId) = false := by
    rcases hg2 with h | h <;> simp [h]
  refine ⟨?_, ?_, ?_⟩
  · unfold handleSelection
    rw [har]
    simp only [hgate1, hgate2, Bool.false_eq_true, if_false]
  · intro hp m
    unfold applySelection
    rw [hp]
    simp
  · intro m hm
    simp [selEntryOf, hm, pointSelection]

theorem c4_witness :
    (handleSelection stBoth selPointA 9).2 =
      [(Target.roomExceptSender "r1",
        OutEvent.selectionState
          (((selMembersAfter { arLive with members := [memA, memBon] }
            selPointA 9).filter (fun m => m.online)).map (selEntryOf true)) "A")] ∧
    pointCond selPointA = true ∧
    (applySelection selPointA memA 9).lastSelection =
      some (pointSelection selPointA) := by
  have h := c4_selection_state_payload stBoth selPointA 9
    { arLive with members := [memA, memBon] } (by decide)
    (Or.inl (by decide)) (Or.inl (by decide))
  exact ⟨h.1, by decide, h.2.1 (by decide) memA⟩

/-!  C3 -/

/-- C3 counterexample: B rejoins room r1 while holding a retained last
cursor; the `joined` reply to B lists B's own cursor in `currentCursors`,
refuting the claim that the joiner's own retained state is excluded. -/
theorem c3_counterexample :
    (joinedPayloads (handleJoinRoom okEngine stLive "sockB1" joinB 5).emits).map
      (fun p => p.currentCursors.map (fun c => c.telegramId)) = [["B"]] := by decide

/-- C3 amended: the `joined` reply (sent only to the joining connection)
carries the last cursors and last selections of all online members holding
such state — including the joiner's own retained cursor and selection —
together with the joiner's assigned color, the teacher flag, the three
feature toggles, the language tag and the completed flag. -/
theorem c3_joined_payload (engine : Engine) (st : GatewayState) (clientId : String)
    (d : JoinPayload) (now : Nat) (room : StoreRoom) (ar : Room)
    (hroom : storeGetRoom st.store d.roomId = some room)
    (hpart : room.teacher = d.telegramId ∨ d.telegramId ∈ room.students)
    (har : findRoom st.activeRooms room.id = some ar) :
    joinedPayloads (handleJoinRoom engine st clientId d now).emits =
      [{ telegramId := d.telegramId,
         currentCursors :=
           ((upsertMember ar.members clientId d.telegramId d.username now).filter
             (fun m => m.lastCursorPosition.isSome && m.online)).map cursorEntryOf,
         currentSelections :=
           ((upsertMember ar.members clientId d.telegramId d.username now).filter
             (fun m => m.lastSelection.isSome && m.online)).map (selEntryOf true),
         userColor := joinColor
           (ar.members.find? (fun m => m.telegramId == d.telegramId)) d.telegramId,
         isTeacher := room.teacher == d.telegramId,
         studentCursorEnabled := ar.studentCursorEnabled,
         studentSelectionEnabled := ar.studentSelectionEnabled,
         studentEditCodeEnabled := ar.studentEditCodeEnabled,
         language := room.language, completed := room.completed }] ∧
    (∀ e ∈ (handleJoinRoom engine st clientId d now).emits,
      isJoinedEvent e.2 = true → e.1 = Target.sender) := by
  have hpartb : (room.teacher == d.telegramId ||
      room.students.contains d.telegramId) = true := by
    rcases hpart with h | h
    · simp [h]
    · have hcont : room.students.contains d.telegramId = true := List.elem_iff.mpr h
      rw [hcont, Bool.or_true]
  have henroll : enrollIfNeeded st.store room d.telegramId = some (st.store, room) := by
    unfold enrollIfNeeded
    rw [if_pos hpartb]
  have hstep : handleJoinRoom engine st clientId d now =
      joinActiveRoomPhase engine st st.store room clientId d now := by
    unfold handleJoinRoom
    simp only [hroom, henroll]
  rw [hstep]
  unfold joinActiveRoomPhase
  rw [har]
  simp only [Option.getD_some]
  constructor
  · simp [joinedPayloads]
  · intro e he hj
    simp only [HandlerResult.emits_ok, List.mem_cons, List.not_mem_nil, or_false] at he
    rcases he with rfl | rfl | rfl | rfl
    · simp [isJoinedEvent] at hj
    · rfl
    · simp [isJoinedEvent] at hj
    · simp [isJoinedEvent] at hj

theorem c3_witness :
    joinedPayloads (handleJoinRoom okEngine stLive "sockB1" joinB 5).emits =
      [{ telegramId := "B",
         currentCursors :=
           ((upsertMember arLive.members "sockB1" "B" none 5).filter
             (fun m => m.lastCursorPosition.isSome && m.online)).map cursorEntryOf,
         currentSelections :=
           ((upsertMember arLive.members "sockB1" "B" none 5).filter
             (fun m => m.lastSelection.isSome && m.online)).map (selEntryOf true),
         userColor := joinColor
           (arLive.members.find? (fun m => m.telegramId == "B")) "B",
         isTeacher := false,
         studentCursorEnabled := true, studentSelectionEnabled := true,
         studentEditCodeEnabled := true,
         language := some "python", completed := false }] ∧
    (∀ e ∈ (handleJoinRoom okEngine stLive "sockB1" joinB 5).emits,
      isJoinedEvent e.2 = true → e.1 = Target.sender) := by
  have h := c3_joined_payload okEngine stLive "sockB1" joinB 5 srLive arLive
    (by decide) (Or.inr (by decide)) (by decide)
  constructor
  · rw [h.1]
    decide
  · exact h.2

/-!  C6 -/

theorem find?_and_of_find? {α} {p q : α → Bool} {l : List α} {x : α}
    (h : l.find? p = some x) (hq : q x = true) :
    l.find? (fun y => p y && q y) = some x := by
  induction l with
  | nil => simp at h
  | cons a t ih =>
    by_cases hpa : p a = true
    · rw [List.find?_cons_of_pos _ hpa] at h
      cases h
      exact List.find?_cons_of_pos _ (by simp [hpa, hq])
    · rw [List.find?_cons_of_neg _ hpa] at h
      rw [List.find?_cons_of_neg _ (by simp [hpa])]
      exact ih h

theorem findRoom_map_preserving (f : Room → Room) (hf : ∀ r, (f r).id = r.id)
    (l : List Room) (rid : String) :
    findRoom (l.map f) rid = (findRoom l rid).map f := by
  unfold findRoom
  have hpred : ((fun r : Room => r.id == rid) ∘ f) = (fun r : Room => r.id == rid) := by
    funext r
    simp [Function.comp, hf]
  rw [List.find?_map, hpred]

/-- C6: a teacher edit-room on an uncompleted room that specifies only some
of the three toggles leaves every unspecified toggle of the ActiveRoom
snapshot exactly as it was — a partial update never resets an unspecified
toggle to a default. -/
theorem c6_partial_toggle_update (st : GatewayState) (d : EditPayload)
    (room : StoreRoom) (ar : Room)
    (hroom : storeGetRoom st.store d.roomId = some room)
    (ht : room.teacher = d.telegramId) (hnc : room.completed = false)
    (har : findRoom st.activeRooms room.id = some ar) :
    ∃ ar2, findRoom (handleEditRoom st d).state.activeRooms room.id = some ar2 ∧
      (d.studentCursorEnabled = none →
        ar2.studentCursorEnabled = ar.studentCursorEnabled) ∧
      (d.studentEditCodeEnabled = none →
        ar2.studentEditCodeEnabled = ar.studentEditCodeEnabled) ∧
      (d.studentSelectionEnabled = none →
        ar2.studentSelectionEnabled = ar.studentSelectionEnabled) := by
  obtain ⟨hmem, hid⟩ := storeGetRoom_mem hroom
  have hbne : (room.teacher != d.telegramId) = false := by simp [ht]
  have hfind1 : st.store.find? (fun r => r.id == room.id) = some room := by
    unfold storeGetRoom at hroom
    rw [hid]
    exact hroom
  have hfind2 : st.store.find?
      (fun r => r.id == room.id && r.teacher == d.telegramId) = some room :=
    find?_and_of_find? hfind1 (by simp [ht])
  have hedit : storeEditRoom st.store room.id d =
      some (updateFirst (fun r => r.id == room.id && r.teacher == d.telegramId)
        (fun _ => editedStoreRoom room d) st.store, editedStoreRoom room d) := by
    unfold storeEditRoom
    rw [hfind2]
  unfold handleEditRoom
  rw [hroom]
  simp only [hbne, hnc, Bool.false_eq_true, if_false, hedit, har,
    HandlerResult.state_ok, Option.map_some']
  have hidpres : ∀ item : Room,
      ((fun item =>
        if (item.id == (editedStoreRoom room d).id) = true then
          { item with
            studentCursorEnabled :=
              mergeToggle d.studentCursorEnabled (some ar.studentCursorEnabled)
                room.studentCursorEnabled,
            studentEditCodeEnabled :=
              mergeToggle d.studentEditCodeEnabled (some ar.studentEditCodeEnabled)
                room.studentEditCodeEnabled,
            studentSelectionEnabled :=
              mergeToggle d.studentSelectionEnabled (some ar.studentSelectionEnabled)
                room.studentSelectionEnabled }
        else item) item).id = item.id := by
    intro item
    dsimp only
    split <;> rfl
  rw [findRoom_map_preserving _ hidpres, har, Option.map_some']
  have harid : (ar.id == (editedStoreRoom room d).id) = true := by
    have : (editedStoreRoom room d).id = room.id := rfl
    simp [this, (findRoom_mem har).2]
  refine ⟨_, rfl, ?_, ?_, ?_⟩ <;> intro hnone <;>
    simp [harid, mergeToggle, hnone]

theorem c6_witness :
    ∃ ar2, findRoom (handleEditRoom stLive
        { roomId := "r1", telegramId := "T", studentCursorEnabled := some false,
          studentEditCodeEnabled := none, studentSelectionEnabled := none,
          language := none, taskId := none }).state.activeRooms "r1" = some ar2 ∧
      ((some false : Option Bool) = none →
        ar2.studentCursorEnabled = arLive.studentCursorEnabled) ∧
      ((none : Option Bool) = none →
        ar2.studentEditCodeEnabled = arLive.studentEditCodeEnabled) ∧
      ((none : Option Bool) = none →
        ar2.studentSelectionEnabled = arLive.studentSelectionEnabled) :=
  c6_partial_toggle_update stLive
    { roomId := "r1", telegramId := "T", studentCursorEnabled := some false,
      studentEditCodeEnabled := none, studentSelectionEnabled := none,
      language := none, taskId := none }
    srLive arLive (by decide) (by decide) (by decide) (by decide)

/-!  C9 -/

theorem mem_removeFirstById {rid : String} {l : List Room} {r : Room}
    (h : r ∈ removeFirstById rid l) : r ∈ l := by
  induction l with
  | nil => simp [removeFirstById] at h
  | cons a t ih =>
    simp only [removeFirstById] at h
    by_cases ha : (a.id == rid) = true
    · rw [if_pos ha] at h
      exact List.mem_cons_of_mem _ h
    · rw [if_neg ha] at h
      rcases List.mem_cons.mp h with rfl | h2
      · exact List.mem_cons_self _ _
      · exact List.mem_cons_of_mem _ (ih h2)

theorem findRoom_cons_pos {a : Room} {l : List Room} {rid : String}
    (h : (a.id == rid) = true) : findRoom (a :: l) rid = some a := by
  unfold findRoom
  exact List.find?_cons_of_pos _ h

theorem findRoom_cons_neg {a : Room} {l : List Room} {rid : String}
    (h : ¬((a.id == rid) = true)) : findRoom (a :: l) rid = findRoom l rid := by
  unfold findRoom
  exact List.find?_cons_of_neg _ h

/-- Shape of the active-room list after the disconnect pass found `room`
first: the refreshed room is found by id in the non-evicting list, and is
gone from the evicting one (under uniqueness of room ids). -/
theorem disconnect_rooms_shape {clientId : String} {rooms : List Room} {room : Room}
    (hid : (rooms.map (fun r => r.id)).Nodup)
    (hfind : rooms.find? (roomHasClient clientId) = some room) :
    findRoom (removeFirstById room.id
      (updateFirst (roomHasClient clientId)
        (fun r => { r with members := discMemberUpdate clientId r.members }) rooms))
      room.id = none ∧
    findRoom (updateFirst (roomHasClient clientId)
      (fun r => { r with members := discMemberUpdate clientId r.members }) rooms)
      room.id = some { room with members := discMemberUpdate clientId room.members } := by
  induction rooms with
  | nil => simp at hfind
  | cons a t ih =>
    rw [List.map_cons, List.nodup_cons] at hid
    by_cases hpa : roomHasClient clientId a = true
    · rw [List.find?_cons_of_pos _ hpa] at hfind
      cases hfind
      constructor
      · simp only [updateFirst, removeFirstById]
        rw [if_pos hpa]
        simp only [removeFirstById]
        rw [if_pos (by simp)]
        unfold findRoom
        rw [List.find?_eq_none]
        intro x hx hbeq
        have hxe : x.id = room.id := by simpa using hbeq
        exact hid.1 (hxe ▸ List.mem_map_of_mem (fun r => r.id) hx)
      · simp only [updateFirst]
        rw [if_pos hpa]
        exact findRoom_cons_pos (by simp)
    · rw [List.find?_cons_of_neg _ hpa] at hfind
      have hmemt : room ∈ t := List.mem_of_find?_eq_some hfind
      have hne : ¬((a.id == room.id) = true) := by
        simp only [beq_iff_eq]
        intro he
        exact hid.1 (he ▸ List.mem_map_of_mem (fun r => r.id) hmemt)
      obtain ⟨ih1, ih2⟩ := ih hid.2 hfind
      constructor
      · simp only [updateFirst]
        rw [if_neg hpa]
        simp only [removeFirstById]
        rw [if_neg hne]
        rw [findRoom_cons_neg hne]
        exact ih1
      · simp only [updateFirst]
        rw [if_neg hpa]
        rw [findRoom_cons_neg hne]
        exact ih2

/-- After the disconnect mutation, nobody is online, provided the member
bound to the connection was the only online one. -/
theorem discUpdate_filter_online_nil {clientId : String} {ms : List Member}
    {member : Member}
    (hf : ms.find? (fun m => m.clientId == clientId) = some member)
    (honly : ms.filter (fun m => m.online) = [member]) :
    (discMemberUpdate clientId ms).filter (fun m => m.online) = [] := by
  unfold discMemberUpdate
  induction ms with
  | nil => simp at hf
  | cons a t ih =>
    by_cases hpa : (a.clientId == clientId) = true
    · simp only [List.find?_cons, hpa] at hf
      injection hf with hf
      subst hf
      simp only [updateFirst]
      rw [if_pos hpa]
      by_cases hoa : a.online = true
      · rw [List.filter_cons, if_pos hoa] at honly
        rw [List.filter_cons, if_neg (by simp)]
        injection honly with h1 h2
      · rw [List.filter_cons, if_neg hoa] at honly
        exfalso
        have hmf : a ∈ t.filter (fun m => m.online) := by
          rw [honly]
          exact List.mem_cons_self _ _
        exact hoa (List.mem_filter.mp hmf).2
    · have hpa2 : (a.clientId == clientId) = false := by simpa using hpa
      simp only [List.find?_cons, hpa2] at hf
      simp only [updateFirst]
      rw [if_neg hpa]
      by_cases hoa : a.online = true
      · rw [List.filter_cons, if_pos hoa] at honly
        injection honly with h1 h2
        subst h1
        exact absurd (List.find?_some hf) hpa
      · rw [List.filter_cons, if_neg hoa] at honly
        rw [List.filter_cons, if_neg hoa]
        exact ih hf honly

/-- After the disconnect mutation, an online member bound to a different
connection is still online. -/
theorem discUpdate_filter_online_ne_nil {clientId : String} {ms : List Member}
    {m2 : Member} (hm : m2 ∈ ms) (ho : m2.online = true) (hc : m2.clientId ≠ clientId) :
    (discMemberUpdate clientId ms).filter (fun m => m.online) ≠ [] := by
  have hmem2 : m2 ∈ discMemberUpdate clientId ms :=
    mem_updateFirst_of_neg hm (by simpa using hc) _
  have hmf : m2 ∈ (discMemberUpdate clientId ms).filter (fun m => m.online) :=
    List.mem_filter.mpr ⟨hmem2, ho⟩
  intro hnil
  rw [hnil] at hmf
  simp at hmf

/-- C9: on disconnect of a connection bound (uniquely, per the expected
at-most-one-match invariant) to a member of an active room: if that member
was the only online member, the room is gone from the registry by the end
of the pass; otherwise the room remains, with the member marked offline and
its last selection cleared. -/
theorem c9_disconnect_reaper (st : GatewayState) (clientId : String)
    (room : Room) (member : Member)
    (hid : (st.activeRooms.map (fun r => r.id)).Nodup)
    (hfind : st.activeRooms.find? (roomHasClient clientId) = some room)
    (hmem : room.members.find? (fun m => m.clientId == clientId) = some member) :
    (room.members.filter (fun m => m.online) = [member] →
      findRoom (handleDisconnect st clientId).1.activeRooms room.id = none) ∧
    ((∃ m2 ∈ room.members, m2.online = true ∧ m2.clientId ≠ clientId) →
      findRoom (handleDisconnect st clientId).1.activeRooms room.id =
        some { room with members := discMemberUpdate clientId room.members } ∧
      ({ member with online := false, lastSelection := none } : Member) ∈
        discMemberUpdate clientId room.members) := by
  obtain ⟨hshape1, hshape2⟩ := disconnect_rooms_shape hid hfind
  have hrun : (handleDisconnect st clientId).1.activeRooms =
      (if (((discMemberUpdate clientId room.members).filter
            (fun m => m.online)).length == 0) = true
       then removeFirstById room.id (updateFirst (roomHasClient clientId)
         (fun r => { r with members := discMemberUpdate clientId r.members })
         st.activeRooms)
       else updateFirst (roomHasClient clientId)
         (fun r => { r with members := discMemberUpdate clientId r.members })
         st.activeRooms) := by
    unfold handleDisconnect
    simp only [hfind, hmem]
  constructor
  · intro honly
    have hnil := discUpdate_filter_online_nil hmem honly
    rw [hrun, if_pos (by rw [hnil]; rfl)]
    exact hshape1
  · rintro ⟨m2, hm2, ho2, hc2⟩
    have hne := discUpdate_filter_online_ne_nil hm2 ho2 hc2
    rw [hrun, if_neg (by simpa [List.length_eq_zero] using hne)]
    exact ⟨hshape2, image_mem_updateFirst hmem _⟩

theorem c9_witness :
    (findRoom (handleDisconnect stBoth "sockA").1.activeRooms "r1" =
      some { arBoth with members := discMemberUpdate "sockA" arBoth.members } ∧
     ({ memA with online := false, lastSelection := none } : Member) ∈
       discMemberUpdate "sockA" arBoth.members) ∧
    findRoom (handleDisconnect stLive "sockA").1.activeRooms "r1" = none :=
  ⟨(c9_disconnect_reaper stBoth "sockA" arBoth memA (by decide) (by decide)
      (by decide)).2 ⟨memBon, by decide, rfl, by decide⟩,
   (c9_disconnect_reaper stLive "sockA" arLive memA (by decide) (by decide)
      (by decide)).1 (by decide)⟩

/-!  C8 -/

/-- Invariant of one member list: identities are pairwise distinct and every
member's stored color is the deterministic color of its identity. -/
def MemberInv (ms : List Member) : Prop :=
  (ms.map (fun m => m.telegramId)).Nodup ∧
  ∀ m ∈ ms, m.userColor = some (generateUserColor m.telegramId)

/-- Invariant of the whole registry. -/
def RoomsInv (st : GatewayState) : Prop :=
  ∀ r ∈ st.activeRooms, MemberInv r.members

theorem memberInv_updateFirst (ms : List Member) (h : MemberInv ms)
    (p : Member → Bool) (f : Member → Member)
    (hid : ∀ m, (f m).telegramId = m.telegramId)
    (hcol : ∀ m, (f m).userColor = m.userColor) :
    MemberInv (updateFirst p f ms) := by
  constructor
  · rw [map_updateFirst _ _ _ hid]
    exact h.1
  · intro m hm
    rcases mem_updateFirst hm with h1 | ⟨x, hx, rfl⟩
    · exact h.2 m h1
    · rw [hcol, hid]
      exact h.2 x hx

theorem memberInv_upsert (ms : List Member) (c tid : String) (u : Option String)
    (now : Nat) (h : MemberInv ms) : MemberInv (upsertMember ms c tid u now) := by
  unfold upsertMember
  by_cases hf : (ms.find? (fun m => m.telegramId == tid)).isSome = true
  · rw [if_pos hf]
    exact memberInv_updateFirst ms h _ _ (fun m => rfl) (fun m => rfl)
  · rw [if_neg hf]
    constructor
    · rw [List.map_append]
      refine List.Nodup.append h.1 (List.nodup_singleton _) ?_
      intro x hx hx2
      simp only [List.map_cons, List.map_nil, List.mem_singleton] at hx2
      rw [hx2] at hx
      rcases List.mem_map.mp hx with ⟨m, hm, hmt⟩
      have hnone : ms.find? (fun m => m.telegramId == tid) = none :=
        Option.not_isSome_iff_eq_none.mp (by simpa using hf)
      have hcontra := List.find?_eq_none.mp hnone m hm
      simp [hmt] at hcontra
    · intro m hm
      rcases List.mem_append.mp hm with h1 | h1
      · exact h.2 m h1
      · simp only [List.mem_singleton] at h1
        subst h1
        rfl

theorem memberInv_nil : MemberInv [] := ⟨List.nodup_nil, by simp⟩

/-- Member-list invariant of the ActiveRoom chosen by the join handler
(existing room, or the freshly created empty one). -/
theorem memberInv_activeRoom (st : GatewayState) (room : StoreRoom)
    (h : RoomsInv st) :
    MemberInv ((findRoom st.activeRooms room.id).getD (freshActiveRoom room)).members := by
  cases hfr : findRoom st.activeRooms room.id with
  | none => exact memberInv_nil
  | some ar => exact h ar (findRoom_mem hfr).1

theorem roomsInv_joinPhase (engine : Engine) (st : GatewayState)
    (store1 : List StoreRoom) (room : StoreRoom) (clientId : String)
    (d : JoinPayload) (now : Nat) (h : RoomsInv st) :
    RoomsInv (joinActiveRoomPhase engine st store1 room clientId d now).state := by
  have hNew : MemberInv (upsertMember
      ((findRoom st.activeRooms room.id).getD (freshActiveRoom room)).members
      clientId d.telegramId d.username now) :=
    memberInv_upsert _ _ _ _ _ (memberInv_activeRoom st room h)
  unfold joinActiveRoomPhase
  cases hfr : findRoom st.activeRooms room.id with
  | none =>
    intro r hr
    simp only [HandlerResult.state_ok] at hr
    rcases mem_updateFirst hr with h1 | ⟨x, hx, rfl⟩
    · rcases List.mem_append.mp h1 with h2 | h2
      · exact h r h2
      · simp only [List.mem_singleton] at h2
        subst h2
        exact memberInv_nil
    · rw [hfr] at hNew
      exact hNew
  | some ar =>
    intro r hr
    simp only [HandlerResult.state_ok] at hr
    rcases mem_updateFirst hr with h1 | ⟨x, hx, rfl⟩
    · exact h r h1
    · rw [hfr] at hNew
      exact hNew

theorem roomsInv_join (engine : Engine) (st : GatewayState) (c : String)
    (d : JoinPayload) (now : Nat) (h : RoomsInv st) :
    RoomsInv (handleJoinRoom engine st c d now).state := by
  unfold handleJoinRoom
  cases h1 : storeGetRoom st.store d.roomId with
  | none => exact h
  | some room0 =>
    dsimp only
    cases h2 : enrollIfNeeded st.store room0 d.telegramId with
    | none => exact h
    | some pr =>
      obtain ⟨store1, room⟩ := pr
      exact roomsInv_joinPhase engine st store1 room c d now h

theorem roomsInv_disconnect (st : GatewayState) (c : String) (h : RoomsInv st) :
    RoomsInv (handleDisconnect st c).1 := by
  unfold handleDisconnect
  cases h1 : st.activeRooms.find? (roomHasClient c) with
  | none => exact h
  | some room =>
    dsimp only
    cases h2 : room.members.find? (fun m => m.clientId == c) with
    | none => exact h
    | some member =>
      have key : ∀ r, r ∈ updateFirst (roomHasClient c)
          (fun r => { r with members := discMemberUpdate c r.members })
          st.activeRooms → MemberInv r.members := by
        intro r hr
        rcases mem_updateFirst hr with h3 | ⟨x, hx, rfl⟩
        · exact h r h3
        · exact memberInv_updateFirst x.members (h x hx) _ _
            (fun m => rfl) (fun m => rfl)
      intro r hr
      dsimp only at hr
      split at hr
      · exact key r (mem_removeFirstById hr)
      · exact key r hr

/-- One inbound session event of the kind claim C8 quantifies over. -/
inductive SessionEvent where
  | join (clientId : String) (data : JoinPayload) (now : Nat)
  | disconnect (clientId : String)

/-- Apply one session event to the gateway state. -/
def stepEvent (engine : Engine) (st : GatewayState) : SessionEvent → GatewayState
  | .join c d now => (handleJoinRoom engine st c d now).state
  | .disconnect c => (handleDisconnect st c).1

/-- Run a sequence of session events. -/
def runEvents (engine : Engine) (st : GatewayState) : List SessionEvent → GatewayState
  | [] => st
  | e :: es => runEvents engine (stepEvent engine st e) es

theorem roomsInv_step (engine : Engine) (st : GatewayState) (e : SessionEvent)
    (h : RoomsInv st) : RoomsInv (stepEvent engine st e) := by
  cases e with
  | join c d now => exact roomsInv_join engine st c d now h
  | disconnect c => exact roomsInv_disconnect st c h

theorem roomsInv_run (engine : Engine) (evs : List SessionEvent)
    (st : GatewayState) (h : RoomsInv st) : RoomsInv (runEvents engine st evs) := by
  induction evs generalizing st with
  | nil => exact h
  | cons e es ih => exact ih _ (roomsInv_step engine st e h)

theorem length_filter_le_one_of_inv {l : List Member}
    (h : (l.map (fun m => m.telegramId)).Nodup) (tid : String) :
    (l.filter (fun m => m.telegramId == tid)).length ≤ 1 := by
  induction l with
  | nil => simp
  | cons a t ih =>
    rw [List.map_cons, List.nodup_cons] at h
    rw [List.filter_cons]
    by_cases ha : (a.telegramId == tid) = true
    · rw [if_pos ha]
      have hnil : t.filter (fun m => m.telegramId == tid) = [] := by
        rw [List.filter_eq_nil_iff]
        intro m hm hbeq
        have h1 : a.telegramId = tid := by simpa using ha
        have h2 : m.telegramId = tid := by simpa using hbeq
        exact h.1 (by
          rw [h1, ← h2]
          exact List.mem_map_of_mem (fun m => m.telegramId) hm)
      rw [hnil]
      simp
    · rw [if_neg ha]
      exact ih h.2

/-- The color the `joined` reply carries is the deterministic color of the
joining identity, whenever the member list satisfies the invariant. -/
theorem joinColor_of_inv {ms : List Member} (h : MemberInv ms) (tid : String) :
    joinColor (ms.find? (fun m => m.telegramId == tid)) tid =
      generateUserColor tid := by
  unfold joinColor
  cases hf : ms.find? (fun m => m.telegramId == tid) with
  | none => rfl
  | some m =>
    have hmem := List.mem_of_find?_eq_some hf
    have htid : m.telegramId = tid := by simpa using List.find?_some hf
    have hcol := h.2 m hmem
    rw [htid] at hcol
    simp only [Option.bind_eq_bind, Option.some_bind, hcol]
    split <;> rfl

theorem joined_color_of_inv (engine : Engine) (st : GatewayState) (c : String)
    (d : JoinPayload) (now : Nat) (h : RoomsInv st) :
    ∀ p ∈ joinedPayloads (handleJoinRoom engine st c d now).emits,
      p.userColor = generateUserColor d.telegramId := by
  unfold handleJoinRoom
  cases h1 : storeGetRoom st.store d.roomId with
  | none => intro p hp; simp [joinedPayloads] at hp
  | some room0 =>
    dsimp only
    cases h2 : enrollIfNeeded st.store room0 d.telegramId with
    | none => intro p hp; simp [joinedPayloads] at hp
    | some pr =>
      obtain ⟨store1, room⟩ := pr
      unfold joinActiveRoomPhase
      intro p hp
      simp only [HandlerResult.emits_ok, joinedPayloads, List.filterMap_cons,
        List.filterMap_nil] at hp
      simp only [List.mem_cons, List.not_mem_nil, or_false] at hp
      subst hp
      exact joinColor_of_inv (memberInv_activeRoom st room h) d.telegramId

/-- C8: across any sequence of join-room and disconnect events, every
active room's member list holds at most one member per identity, every
stored color is the deterministic color of its identity, and every
`joined` reply carries that same deterministic color — so the color
assigned to an identity is identical across every join, independent of
join order. -/
theorem c8_roster_unique_color_stable (engine : Engine)
    (evs : List SessionEvent) (st : GatewayState) (hinv : RoomsInv st) :
    RoomsInv (runEvents engine st evs) ∧
    (∀ r ∈ (runEvents engine st evs).activeRooms, ∀ tid,
      (r.members.filter (fun m => m.telegramId == tid)).length ≤ 1 ∧
      ∀ m ∈ r.members, m.telegramId = tid →
        m.userColor = some (generateUserColor tid)) ∧
    (∀ c d now, ∀ p ∈ joinedPayloads
        (handleJoinRoom engine (runEvents engine st evs) c d now).emits,
      p.userColor = generateUserColor d.telegramId) := by
  have hrun := roomsInv_run engine evs st hinv
  refine ⟨hrun, ?_, ?_⟩
  · intro r hr tid
    have hr2 := hrun r hr
    refine ⟨length_filter_le_one_of_inv hr2.1 tid, ?_⟩
    intro m hm htid
    rw [← htid]
    exact hr2.2 m hm
  · intro c d now
    exact joined_color_of_inv engine _ c d now hrun

/-- Three-event run for the witness: B joins, B's socket disconnects,
B rejoins from a new socket. -/
def evsW : List SessionEvent :=
  [SessionEvent.join "sockB1" joinB 5,
   SessionEvent.disconnect "sockB1",
   SessionEvent.join "sockB2" joinB 9]

theorem c8_witness :
    RoomsInv stLive ∧
    (RoomsInv (runEvents okEngine stLive evsW) ∧
     (∀ r ∈ (runEvents okEngine stLive evsW).activeRooms, ∀ tid,
       (r.members.filter (fun m => m.telegramId == tid)).length ≤ 1 ∧
       ∀ m ∈ r.members, m.telegramId = tid →
         m.userColor = some (generateUserColor tid)) ∧
     (∀ c d now, ∀ p ∈ joinedPayloads
         (handleJoinRoom okEngine (runEvents okEngine stLive evsW) c d now).emits,
       p.userColor = generateUserColor d.telegramId)) := by
  have hinv : RoomsInv stLive := by
    unfold RoomsInv MemberInv
    decide
  exact ⟨hinv, c8_roster_unique_color_stable okEngine evsW stLive hinv⟩

end RoomGateway
